import Mathlib

/-!
Verification of the aggregation and key-normalization core of the
elections2025mtl repository (gabrielfortin/elections2025mtl).

The repository contains three generations of the same map generator:
`genmap3.py`, `generate_map.py` and `v1-1/gen_mairie.py`.  The verified core
is, for each of them, the function that turns the flat CSV of per-candidate
result rows into the nested results index consumed by the rendering layer
(`build_results_index` in `genmap3.py` and `generate_map.py`), together with
the key-normalization helpers (`norm_digits`, `norm_bureau3`, the comma-to-dot
normalization of the `Poste` column).

Modelling conventions, documented once here:

* A CSV cell is `Option String`; `none` models a missing value (pandas `NaN`).
* Numeric cells are modelled as integer-valued: `pd.to_numeric` /
  Python `int()` are modelled by an integer parser (`to_numeric`).  All vote
  and total columns of the source data are integers, and no claim under
  verification depends on fractional numeric cells.
* Python floats used for percentages are modelled as exact rationals (`ℚ`);
  every percentage value exercised by the claims is exactly representable.
* `pandas.DataFrame.sort_values` is called with its default
  `kind='quicksort'`, which numpy documents as NOT stable.  The only
  guarantee the source code therefore has is that the result is a
  permutation of the group ordered by descending votes.  The genmap3
  aggregator is consequently parameterized by the sorting function, and
  theorems quantify over every function satisfying that contract
  (`ValidDescSort`).  Python's `list.sort` and JavaScript's
  `Array.prototype.sort` are documented stable and are modelled by a concrete
  stable insertion sort (`sortByKeep` with the strict comparison).
* Python exceptions are modelled with `Except String`.
-/

namespace Elections

/-- Raw CSV cell: `none` models a missing value (pandas NaN). -/
abbrev Cell := Option String

/-! ### Generic list helpers -/

/-- Error-propagating map over a list (first error wins), mirroring a Python
loop that may raise on any element. -/
def mapME {α β : Type} (f : α → Except String β) : List α → Except String (List β)
  | [] => Except.ok []
  | x :: xs =>
    match f x with
    | Except.error e => Except.error e
    | Except.ok y =>
      match mapME f xs with
      | Except.error e => Except.error e
      | Except.ok ys => Except.ok (y :: ys)

/-- First-occurrence deduplication, mirroring the iteration order in which
`dict.setdefault` first sees each group key. -/
def dedupFirst {α : Type} [DecidableEq α] (l : List α) : List α :=
  l.foldl (fun acc k => if k ∈ acc then acc else acc ++ [k]) []

/-- Insertion step of an insertion sort: keep the existing head `y` in front
of the new element `r` exactly when `c y r` is `true`. -/
def insKeep {α : Type} (c : α → α → Bool) (r : α) : List α → List α
  | [] => [r]
  | y :: ys => if c y r then y :: insKeep c r ys else r :: y :: ys

/-- Insertion sort driven by the keep-condition `c`. -/
def sortByKeep {α : Type} (c : α → α → Bool) : List α → List α
  | [] => []
  | x :: xs => insKeep c x (sortByKeep c xs)

/-- Keep-condition of a STABLE descending sort on `key`: an element already
placed stays in front of a newly inserted one only when strictly greater, so
ties keep their original order.  This models Python's `list.sort(...,
reverse=True)` and JavaScript's `Array.prototype.sort`, both documented
stable. -/
def stableDescKeep {α : Type} (key : α → Int) : α → α → Bool :=
  fun y x => decide (key x < key y)

/-- Keep-condition of an ANTI-stable descending sort on `key`: ties are
reversed relative to the input.  This is one behaviour permitted by the
contract of `pandas.sort_values(kind='quicksort')`, which numpy documents as
not stable. -/
def antiDescKeep {α : Type} (key : α → Int) : α → α → Bool :=
  fun y x => decide (key x ≤ key y)

/-! ### Generic facts about `sortByKeep` -/

variable {α : Type} (key : α → Int)

/-- Soundness condition for a keep-condition of a descending sort. -/
def GoodKeep (c : α → α → Bool) : Prop :=
  ∀ y x, (c y x = true → key x ≤ key y) ∧ (c y x = false → key y ≤ key x)

theorem insKeep_perm (c : α → α → Bool) (r : α) :
    ∀ l : List α, (insKeep c r l).Perm (r :: l)
  | [] => List.Perm.refl _
  | y :: ys => by
    unfold insKeep
    by_cases h : c y r = true
    · simp only [h, if_true]
      exact ((insKeep_perm c r ys).cons y).trans (List.Perm.swap r y ys)
    · simp only [h, if_false, Bool.false_eq_true]
      exact List.Perm.refl _

theorem sortByKeep_perm (c : α → α → Bool) :
    ∀ l : List α, (sortByKeep c l).Perm l
  | [] => List.Perm.refl _
  | x :: xs => by
    unfold sortByKeep
    exact (insKeep_perm c x _).trans ((sortByKeep_perm c xs).cons x)

theorem insKeep_sorted {c : α → α → Bool} (hc : GoodKeep key c) (r : α) :
    ∀ l : List α, l.Pairwise (fun a b => key b ≤ key a) →
      (insKeep c r l).Pairwise (fun a b => key b ≤ key a)
  | [], _ => by simp [insKeep]
  | y :: ys, hl => by
    unfold insKeep
    rcases List.pairwise_cons.mp hl with ⟨hy, hys⟩
    by_cases h : c y r = true
    · simp only [h, if_true]
      refine List.pairwise_cons.mpr ⟨?_, insKeep_sorted hc r ys hys⟩
      intro b hb
      rcases List.mem_cons.mp (((insKeep_perm c r ys).mem_iff).mp hb) with hb | hb
      · exact hb ▸ (hc y r).1 h
      · exact hy b hb
    · simp only [h, if_false, Bool.false_eq_true]
      refine List.pairwise_cons.mpr ⟨?_, hl⟩
      intro b hb
      rcases List.mem_cons.mp hb with hb | hb
      · exact hb ▸ (hc y r).2 (by simpa using h)
      · exact le_trans (hy b hb) ((hc y r).2 (by simpa using h))

theorem sortByKeep_sorted {c : α → α → Bool} (hc : GoodKeep key c) :
    ∀ l : List α, (sortByKeep c l).Pairwise (fun a b => key b ≤ key a)
  | [] => by simp [sortByKeep]
  | x :: xs => by
    unfold sortByKeep
    exact insKeep_sorted key hc x _ (sortByKeep_sorted hc xs)

theorem goodKeep_stable : GoodKeep key (stableDescKeep key) := by
  intro y x
  constructor
  · intro h
    exact le_of_lt (of_decide_eq_true h)
  · intro h
    exact not_lt.mp (of_decide_eq_false h)

theorem goodKeep_anti : GoodKeep key (antiDescKeep key) := by
  intro y x
  constructor
  · intro h
    exact of_decide_eq_true h
  · intro h
    exact le_of_lt (not_le.mp (of_decide_eq_false h))



theorem sortByKeep_stable_head (key : α → Int) :
    ∀ l : List α, l ≠ [] →
      ∃ l₁ w l₂, l = l₁ ++ w :: l₂ ∧ (∀ a ∈ l₁, key a < key w) ∧
        (∀ a ∈ l, key a ≤ key w) ∧
        (sortByKeep (stableDescKeep key) l).head? = some w := by
  intro l
  induction l with
  | nil => intro h; exact absurd rfl h
  | cons x xs ih =>
    intro _
    cases xs with
    | nil =>
      refine ⟨[], x, [], rfl, by simp, ?_, rfl⟩
      intro a ha
      rw [List.mem_singleton.mp ha]
    | cons y ys =>
      obtain ⟨l₁, w, l₂, hdec, hlt, hle, hhead⟩ := ih (by simp)
      obtain ⟨rest, hrest⟩ : ∃ rest, sortByKeep (stableDescKeep key) (y :: ys) = w :: rest := by
        cases hs : sortByKeep (stableDescKeep key) (y :: ys) with
        | nil => rw [hs] at hhead; simp at hhead
        | cons a t =>
          rw [hs] at hhead
          simp only [List.head?, Option.some.injEq] at hhead
          exact ⟨t, by rw [hhead]⟩
      have hstep : sortByKeep (stableDescKeep key) (x :: y :: ys) =
          insKeep (stableDescKeep key) x (sortByKeep (stableDescKeep key) (y :: ys)) := rfl
      by_cases hcw : key x < key w
      · refine ⟨x :: l₁, w, l₂, by rw [hdec, List.cons_append], ?_, ?_, ?_⟩
        · intro a ha
          rcases List.mem_cons.mp ha with rfl | ha
          · exact hcw
          · exact hlt a ha
        · intro a ha
          rcases List.mem_cons.mp ha with rfl | ha
          · exact le_of_lt hcw
          · exact hle a ha
        · rw [hstep, hrest]
          unfold insKeep
          have hb : stableDescKeep key w x = true := decide_eq_true hcw
          simp [hb]
      · have hwx : key w ≤ key x := not_lt.mp hcw
        refine ⟨[], x, y :: ys, rfl, by simp, ?_, ?_⟩
        · intro a ha
          rcases List.mem_cons.mp ha with rfl | ha
          · exact le_refl _
          · exact le_trans (hle a ha) hwx
        · rw [hstep, hrest]
          unfold insKeep
          have hb : stableDescKeep key w x = false := decide_eq_false hcw
          simp [hb]

theorem insKeep_stable_filter (key : α → Int) (v : Int) (r : α) :
    ∀ l : List α,
      (insKeep (stableDescKeep key) r l).filter (fun a => decide (key a = v)) =
        if key r = v then r :: l.filter (fun a => decide (key a = v))
        else l.filter (fun a => decide (key a = v)) := by
  intro l
  induction l with
  | nil =>
    by_cases h : key r = v <;> simp [insKeep, h]
  | cons y ys ih =>
    unfold insKeep
    by_cases hc : stableDescKeep key y r = true
    · simp only [hc, if_true]
      have hxy : key r < key y := of_decide_eq_true hc
      by_cases hy : key y = v
      · have hrv : ¬ key r = v := fun h => absurd (h.trans hy.symm) (ne_of_lt hxy)
        simp [List.filter_cons, hy, hrv, ih]
      · simp [List.filter_cons, hy, ih]
    · have hc' : stableDescKeep key y r = false := by simpa using hc
      simp only [hc', Bool.false_eq_true, if_false]
      by_cases hr : key r = v <;> by_cases hy : key y = v <;>
        simp [List.filter_cons, hr, hy]

theorem sortByKeep_stable_filter (key : α → Int) (v : Int) :
    ∀ l : List α,
      (sortByKeep (stableDescKeep key) l).filter (fun a => decide (key a = v)) =
        l.filter (fun a => decide (key a = v))
  | [] => rfl
  | x :: xs => by
    simp only [sortByKeep]
    rw [insKeep_stable_filter key v x _]
    by_cases hx : key x = v <;>
      simp [List.filter_cons, hx, sortByKeep_stable_filter key v xs]

theorem sortByKeep_stable_fix (key : α → Int) :
    ∀ l : List α, l.Pairwise (fun a b => key b ≤ key a) →
      sortByKeep (stableDescKeep key) l = l
  | [], _ => rfl
  | x :: xs, h => by
    rcases List.pairwise_cons.mp h with ⟨hx, hxs⟩
    have ih := sortByKeep_stable_fix key xs hxs
    simp only [sortByKeep, ih]
    cases xs with
    | nil => rfl
    | cons y ys =>
      unfold insKeep
      have hb : stableDescKeep key y x = false :=
        decide_eq_false (not_lt.mpr (hx y (by simp)))
      simp [hb]

theorem sortByKeep_nil_iff (c : α → α → Bool) (l : List α) :
    sortByKeep c l = [] ↔ l = [] := by
  constructor
  · intro h
    have := (sortByKeep_perm c l).length_eq
    rw [h] at this
    exact List.length_eq_zero.mp this.symm
  · intro h
    rw [h]
    rfl


/-! ### Key Normalizer (string utilities of the source) -/

/-- Digits of a string, in order; models `re.sub(r'\D+', '', str(x))`. -/
def stripNonDigits (s : String) : String :=
  String.mk (s.toList.filter Char.isDigit)

/-- Strip leading `'0'` characters; models `str.lstrip('0')`. -/
def lstripZeros (s : String) : String :=
  String.mk (s.toList.dropWhile (fun c => c = '0'))

/-- `norm_digits` of `generate_map.py`: keep only digits, then strip leading
zeros. -/
def norm_digits (s : String) : String :=
  lstripZeros (stripNonDigits s)

/-- Left zero-padding to `w` characters, sign-aware like Python `str.zfill`. -/
def zfill (w : Nat) (s : String) : String :=
  if w ≤ s.length then s
  else
    match s.toList with
    | [] => String.mk (List.replicate w '0')
    | c :: rest =>
      if c = '-' ∨ c = '+' then
        String.mk (c :: (List.replicate (w - s.length) '0' ++ rest))
      else
        String.mk (List.replicate (w - s.length) '0' ++ (c :: rest))

/-- Last `n` characters of a character list. -/
def takeLastChars (n : Nat) (l : List Char) : List Char :=
  (l.reverse.take n).reverse

/-- `norm_bureau3` of `generate_map.py`: keep only digits, take the trailing
three characters, and left-pad with zeros to width three. -/
def norm_bureau3 (s : String) : String :=
  zfill 3 (String.mk (takeLastChars 3 (stripNonDigits s).toList))

/-- Numeric value of a list of decimal digits. -/
def digitsToNat (l : List Char) : Nat :=
  l.foldl (fun a c => a * 10 + (c.toNat - 48)) 0

/-- Integer parser on characters: optional sign followed by at least one
digit. -/
def parseIntChars : List Char → Option Int
  | [] => none
  | '-' :: ds =>
    if ds ≠ [] ∧ ds.all Char.isDigit then some (-(Int.ofNat (digitsToNat ds))) else none
  | '+' :: ds =>
    if ds ≠ [] ∧ ds.all Char.isDigit then some (Int.ofNat (digitsToNat ds)) else none
  | ds =>
    if ds.all Char.isDigit then some (Int.ofNat (digitsToNat ds)) else none

/-- Integer-valued model of `pd.to_numeric(cell, errors="coerce")` (and of
what Python `int(cell)` would accept): surrounding whitespace is ignored and
a non-numeric or missing cell yields `none` (NaN). -/
def to_numeric (c : Cell) : Option Int :=
  match c with
  | none => none
  | some s =>
    parseIntChars
      (((s.toList.dropWhile Char.isWhitespace).reverse.dropWhile Char.isWhitespace).reverse)

/-- Rendering of a cell by pandas `astype(str)`: a NaN cell renders as the
string `"nan"`. -/
def cellStr (c : Cell) : String := c.getD "nan"

/-- Office-code normalization shared by `genmap3.py` (line 91) and
`v1-1/gen_mairie.py` (line 50): `str.replace(",", ".")`.  The pattern is a
single character, so the replacement is modelled as a character map. -/
def posteNormStr (s : String) : String :=
  String.mk (s.toList.map (fun c => if c = ',' then '.' else c))

/-- `normalize_str` of `genmap3.py`: a missing value becomes `""`; otherwise
the BOM is removed, non-breaking spaces become spaces, and the result is
stripped.  (The final unicode NFC normalization is not modelled; it is the
identity on every string exercised here.) -/
def normalize_str (s : String) : String :=
  String.mk
    (((s.toList.filterMap
        (fun c => if c = '\uFEFF' then none else if c = '\u00A0' then some ' ' else some c)
      ).dropWhile Char.isWhitespace).reverse.dropWhile Char.isWhitespace).reverse

/-- `normalize_str` applied to a raw cell (`None`/NaN gives `""`). -/
def normCell (c : Cell) : String :=
  match c with
  | none => ""
  | some s => normalize_str s

/-- ASCII model of JavaScript `String.prototype.trim().toUpperCase()` used by
`getWinnerInfo` in `generate_map.py`. -/
def jsTrimUpper (s : String) : String :=
  String.mk
    ((((s.toList.dropWhile Char.isWhitespace).reverse.dropWhile Char.isWhitespace).reverse).map
      (fun c => if 'a' ≤ c ∧ c ≤ 'z' then Char.ofNat (c.toNat - 32) else c))

/-! ### Results Aggregator of `genmap3.py` (`build_results_index`, lines 80-159) -/

/-- One raw CSV row as read by `genmap3.py` (the columns it touches). -/
structure Row3 where
  poste : Cell
  electoralDistrictID : Cell
  bureau : Cell
  candidat : Cell
  parti : Cell
  votes : Cell
  totalValid : Cell
  totalRejected : Cell
  totalVotes : Cell
deriving DecidableEq, Inhabited

/-- The raw table: its rows, plus whether each optional total column is
present in the CSV at all (`genmap3.py` tests `col in df.columns`). -/
structure Table3 where
  rows : List Row3
  hasTotalValid : Bool
  hasTotalRejected : Bool
  hasTotalVotes : Bool
deriving DecidableEq, Inhabited

/-- One row after the column-preparation phase of `build_results_index`
(lines 90-104): normalized poste, section code, coerced votes and totals. -/
structure ERow3 where
  posteNorm : String
  sectionCode : String
  districtInt : Int
  bureauRaw : String
  candidat : String
  parti : String
  votes : Int
  totalValid : Option Int
  totalRejected : Option Int
  totalVotes : Option Int
deriving DecidableEq, Inhabited

/-- Column preparation for one row (lines 90-104 of `genmap3.py`).
`pd.to_numeric(df["ElectoralDistrictID"], errors="coerce").astype(int)`
raises `IntCastingNaNError` as soon as any row's district id is not numeric;
this is the only raising step.  `Votes` is coerced with `fillna(0)`; the
total columns are coerced cell-wise when their column exists and are wholly
absent (`none`) otherwise. -/
def enrichRow3 (t : Table3) (r : Row3) : Except String ERow3 :=
  match to_numeric r.electoralDistrictID with
  | none => Except.error "IntCastingNaNError: cannot convert non-finite values to integer"
  | some d =>
    Except.ok
      { posteNorm := posteNormStr (cellStr r.poste)
        sectionCode := zfill 3 (toString d) ++ "-" ++ zfill 3 (cellStr r.bureau)
        districtInt := d
        bureauRaw := cellStr r.bureau
        candidat := normCell r.candidat
        parti := normCell r.parti
        votes := (to_numeric r.votes).getD 0
        totalValid := if t.hasTotalValid then to_numeric r.totalValid else none
        totalRejected := if t.hasTotalRejected then to_numeric r.totalRejected else none
        totalVotes := if t.hasTotalVotes then to_numeric r.totalVotes else none }

/-- One entry of the breakdown list (`{"candidat", "parti", "votes", "pct"}`). -/
structure BRow3 where
  candidat : String
  parti : String
  votes : Int
  pct : Option ℚ
deriving DecidableEq, Inhabited

/-- One aggregated record of `RESULTS_INDEX[poste][section]` in `genmap3.py`. -/
structure Entry3 where
  winner_candidate : String
  winner_party : String
  winner_votes : Int
  total_valid : Option Int
  total_rejected : Option Int
  total_votes : Option Int
  district_id : String
  bureau : String
  breakdown : List BRow3
deriving DecidableEq, Inhabited

/-- Maximum of an optional-integer column, skipping missing values like
pandas `Series.max()` (all-missing gives NaN, i.e. `none`). -/
def colMax : List (Option Int) → Option Int
  | [] => none
  | none :: xs => colMax xs
  | some v :: xs =>
    match colMax xs with
    | none => some v
    | some w => some (max v w)

/-- Percentage denominator of a group (lines 120-125 of `genmap3.py`):
`total_valid` when present and positive, else `total_votes` when present and
positive, else undefined. -/
def totalForPct (tv tt : Option Int) : Option Int :=
  match tv with
  | some v => if 0 < v then some v else
      match tt with
      | some w => if 0 < w then some w else none
      | none => none
  | none =>
      match tt with
      | some w => if 0 < w then some w else none
      | none => none

/-- One breakdown row (lines 127-140): the pct is only computed when a
positive denominator exists, otherwise it is `None`. -/
def mkBRow3 (tfp : Option Int) (r : ERow3) : BRow3 :=
  { candidat := r.candidat
    parti := r.parti
    votes := r.votes
    pct := tfp.map (fun d => (r.votes * 100 : ℚ) / (d : ℚ)) }

/-- Aggregation of one non-empty `(PosteNorm, SectionCode)` group (lines
110-157 of `genmap3.py`).  `sortImpl` stands for
`grp.sort_values("Votes", ascending=False)`, whose quicksort contract only
guarantees a votes-descending permutation (see the header).  The `candidat`
and `parti` fields were already passed through `normalize_str` during
enrichment, exactly as the assembly code applies it to the raw cells. -/
def aggregateGroup3 (sortImpl : List ERow3 → List ERow3) (g : List ERow3) : Entry3 :=
  let winner := (sortImpl g).headI
  let tv := colMax (g.map ERow3.totalValid)
  let tr := colMax (g.map ERow3.totalRejected)
  let tt := colMax (g.map ERow3.totalVotes)
  let tfp := totalForPct tv tt
  { winner_candidate := winner.candidat
    winner_party := winner.parti
    winner_votes := winner.votes
    total_valid := tv
    total_rejected := tr
    total_votes := tt
    district_id := toString g.headI.districtInt
    bureau := g.headI.bureauRaw
    breakdown := g.map (mkBRow3 tfp) }

/-- Grouping key of `genmap3.py`: `(PosteNorm, SectionCode)`. -/
def key3 (r : ERow3) : String × String := (r.posteNorm, r.sectionCode)

/-- `build_results_index` of `genmap3.py`, as a flat association list from
`(poste, section)` keys to aggregated entries.  pandas `groupby` iterates
groups in sorted key order while this model uses first-occurrence order; the
spec states key order is irrelevant and no verified claim depends on it.
Each group is the original-order sublist of rows with that key. -/
def build_results_index3 (sortImpl : List ERow3 → List ERow3) (t : Table3) :
    Except String (List ((String × String) × Entry3)) :=
  match mapME (enrichRow3 t) t.rows with
  | Except.error e => Except.error e
  | Except.ok er =>
    Except.ok
      ((dedupFirst (er.map key3)).map
        (fun k => (k, aggregateGroup3 sortImpl (er.filter (fun r => decide (key3 r = k))))))

/-- Contract of `sort_values("Votes", ascending=False)`: the output is a
permutation of the input that is sorted by votes in descending order.
Nothing more is guaranteed because the default quicksort is not stable. -/
def ValidDescSort (s : List ERow3 → List ERow3) : Prop :=
  ∀ l, (s l).Perm l ∧ (s l).Pairwise (fun a b => b.votes ≤ a.votes)

/-- Concrete stable descending sort on votes (one valid behaviour of
`sort_values`). -/
def sortDescStable : List ERow3 → List ERow3 :=
  sortByKeep (stableDescKeep ERow3.votes)

/-- Concrete anti-stable descending sort on votes (another valid behaviour of
`sort_values`): rows tied on votes come out in reversed input order. -/
def sortDescAnti : List ERow3 → List ERow3 :=
  sortByKeep (antiDescKeep ERow3.votes)

/-! ### Results Aggregator of `generate_map.py` (`build_results_index`,
lines 90-135, and the embedded JavaScript `getWinnerInfo`) -/

/-- One raw CSV row as read by `generate_map.py`.  The `Poste` column is read
with `dtype float`; it is carried as an exact rational and only used as an
opaque group key (no verified claim depends on its string rendering, nor on
NaN poste values). -/
structure RowGM where
  districtID : Cell
  bureau : Cell
  poste : ℚ
  candidat : Cell
  parti : Cell
  votes : Cell
  totalValid : Cell
  totalRejected : Cell
  totalVotes : Cell
deriving DecidableEq, Inhabited

/-- One row of the per-group `rows` list (`{"nom", "parti", "votes", "pct"}`). -/
structure BRowGM where
  nom : String
  parti : String
  votes : Int
  pct : ℚ
deriving DecidableEq, Inhabited

/-- One aggregated record `results[(dist, bureau)][poste]` of
`generate_map.py`.  All three totals are plain integers: this aggregator
never emits a null total. -/
structure EntryGM where
  total_valid : Int
  rejected : Int
  total : Int
  rows : List BRowGM
deriving DecidableEq, Inhabited

/-- Python `int(cell)`: raises (here: errors) on a missing or non-numeric
cell. -/
def intCell (c : Cell) : Except String Int :=
  match to_numeric c with
  | some n => Except.ok n
  | none => Except.error "invalid literal for int()"

/-- Round-half-to-even on rationals, the rule of Python's built-in `round`. -/
def roundHalfEven (q : ℚ) : ℤ :=
  if q - ⌊q⌋ < 1 / 2 then ⌊q⌋
  else if 1 / 2 < q - ⌊q⌋ then ⌊q⌋ + 1
  else if ⌊q⌋ % 2 = 0 then ⌊q⌋ else ⌊q⌋ + 1

/-- Python `round(q, 2)` on the (rational-modelled) percentage. -/
def round2 (q : ℚ) : ℚ := (roundHalfEven (q * 100) : ℚ) / 100

/-- One row of the group loop (lines 113-121 of `generate_map.py`): note the
percentage denominator is ALWAYS `total_valid` (no fallback to `TotalVotes`)
and a non-positive denominator yields `0.0`, not an undefined percentage. -/
def mkBRowGM (total_valid : Int) (v : Int) (r : RowGM) : BRowGM :=
  { nom := r.candidat.getD ""
    parti := r.parti.getD ""
    votes := v
    pct := round2 (if 0 < total_valid then (100 * v : ℚ) / (total_valid : ℚ) else 0) }

/-- The group loop: `int(r["Votes"])` raises on a non-numeric or missing
votes cell. -/
def mkRowsGM (total_valid : Int) (g : List RowGM) : Except String (List BRowGM) :=
  mapME
    (fun r =>
      match to_numeric r.votes with
      | some v => Except.ok (mkBRowGM total_valid v r)
      | none => Except.error "invalid literal for int()") g

/-- `g["Votes"].sum()` wrapped in `int(...)` (used when the
`TotalValidVotes` column is absent). -/
def sumVotesGM (g : List RowGM) : Except String Int :=
  match mapME (fun r => intCell r.votes) g with
  | Except.error e => Except.error e
  | Except.ok vs => Except.ok vs.sum

/-- Stable descending sort of the breakdown rows, the model of
`rows.sort(key=lambda x: x["votes"], reverse=True)` (Python's sort is
documented stable, also with `reverse=True`). -/
def sortRowsGM : List BRowGM → List BRowGM :=
  sortByKeep (stableDescKeep BRowGM.votes)

/-- Aggregation of one non-empty `(DistrictID_norm, Bureau_norm, Poste)`
group (lines 107-133 of `generate_map.py`).  When a total column is absent
the totals are synthesized: `total_valid` from the vote sum, `rejected` as
`0`, `total` as their sum; when present, `int(...iloc[0])` errors on a
missing or non-numeric first cell.  (`iloc[0]` is `headI`; groups produced
by the index builder are never empty.) -/
def aggregateGroupGM (hasTV hasTR hasTT : Bool) (g : List RowGM) : Except String EntryGM :=
  match (if hasTV then intCell g.headI.totalValid else sumVotesGM g) with
  | Except.error e => Except.error e
  | Except.ok total_valid =>
    match (if hasTR then intCell g.headI.totalRejected else Except.ok 0) with
    | Except.error e => Except.error e
    | Except.ok rejected =>
      match (if hasTT then intCell g.headI.totalVotes else Except.ok (total_valid + rejected)) with
      | Except.error e => Except.error e
      | Except.ok total =>
        match mkRowsGM total_valid g with
        | Except.error e => Except.error e
        | Except.ok rows0 =>
          Except.ok
            { total_valid := total_valid
              rejected := rejected
              total := total
              rows := sortRowsGM rows0 }

/-- Grouping key of `generate_map.py`:
`(norm_digits(DistrictID), norm_bureau3(Bureau), Poste)`.  `norm_digits` is
applied to `str(x)`, so a NaN cell renders as a digit-free string and
normalizes to `""`. -/
def keyGM (r : RowGM) : String × String × ℚ :=
  (norm_digits (cellStr r.districtID), norm_bureau3 (cellStr r.bureau), r.poste)

/-- `build_results_index` of `generate_map.py` as a flat association list
(the source nests `results[(d, b)][poste_key]`; flattening the two dict
levels loses nothing a verified claim depends on).  The optional
`only_poste` filter is not modelled (its default `None` disables it). -/
def build_results_index_gm (hasTV hasTR hasTT : Bool) (rows : List RowGM) :
    Except String (List ((String × String × ℚ) × EntryGM)) :=
  mapME
    (fun k =>
      match aggregateGroupGM hasTV hasTR hasTT
          (rows.filter (fun r => decide (keyGM r = k))) with
      | Except.error e => Except.error e
      | Except.ok e => Except.ok (k, e))
    (dedupFirst (rows.map keyGM))

/-- The winner-info record built by the JavaScript `getWinnerInfo`. -/
structure WinnerInfo where
  parti : String
  nom : String
  votes : Int
  total_valid : Int
deriving DecidableEq, Inhabited

/-- JavaScript `getWinnerInfo` (lines 307-323 of `generate_map.py`): sort a
copy of the rows by votes descending (stable by the ECMAScript
specification) and take the top row.  The poste-key lookup with its
float-string fallback is upstream of this and not modelled. -/
def getWinnerInfo (e : EntryGM) : Option WinnerInfo :=
  match e.rows with
  | [] => none
  | _ :: _ =>
    let top := (sortRowsGM e.rows).headI
    some
      { parti := jsTrimUpper top.parti
        nom := top.nom
        votes := top.votes
        total_valid := e.total_valid }

/-- Helper. Extract the payload of a known-successful computation. -/
def okValue {α : Type} [Inhabited α] (x : Except String α) : α :=
  match x with
  | Except.ok a => a
  | Except.error _ => default

/-! ### Inversion and tracing helpers -/


/-- A `mapME` that succeeded was pointwise successful, in order. -/
theorem mapME_ok_mem {α β : Type} (f : α → Except String β) :
    ∀ (l : List α) (ys : List β), mapME f l = Except.ok ys →
      ∀ y ∈ ys, ∃ x ∈ l, f x = Except.ok y
  | [], ys, h => by
    unfold mapME at h
    injection h with h
    subst h
    simp
  | x :: xs, ys, h => by
    revert h
    unfold mapME
    cases hfx : f x with
    | error e => intro h; cases h
    | ok y0 =>
      cases hm : mapME f xs with
      | error e => intro h; cases h
      | ok ys0 =>
        intro h
        injection h with h
        subst h
        intro y hy
        rcases List.mem_cons.mp hy with rfl | hy
        · exact ⟨x, by simp, hfx⟩
        · obtain ⟨x0, hx0, hf0⟩ := mapME_ok_mem f xs ys0 hm y hy
          exact ⟨x0, by simp [hx0], hf0⟩

/-- `mapME` succeeds when every element succeeds. -/
theorem mapME_ok_of_forall {α β : Type} (f : α → Except String β) :
    ∀ l : List α, (∀ x ∈ l, ∃ y, f x = Except.ok y) →
      ∃ ys, mapME f l = Except.ok ys
  | [], _ => ⟨[], rfl⟩
  | x :: xs, h => by
    obtain ⟨y, hy⟩ := h x (by simp)
    obtain ⟨ys, hys⟩ := mapME_ok_of_forall f xs (fun a ha => h a (by simp [ha]))
    exact ⟨y :: ys, by unfold mapME; rw [hy, hys]⟩

/-- A successful `mapME` preserves length. -/
theorem mapME_ok_length {α β : Type} (f : α → Except String β) :
    ∀ (l : List α) (ys : List β), mapME f l = Except.ok ys → ys.length = l.length
  | [], ys, h => by
    unfold mapME at h
    injection h with h
    subst h
    rfl
  | x :: xs, ys, h => by
    revert h
    unfold mapME
    cases hfx : f x with
    | error e => intro h; cases h
    | ok y0 =>
      cases hm : mapME f xs with
      | error e => intro h; cases h
      | ok ys0 =>
        intro h
        injection h with h
        subst h
        simp [mapME_ok_length f xs ys0 hm]

/-- pandas `max` of an all-missing column is missing. -/
theorem colMax_eq_none : ∀ l : List (Option Int), (∀ o ∈ l, o = none) → colMax l = none
  | [], _ => rfl
  | none :: xs, h => by
    unfold colMax
    exact colMax_eq_none xs (fun o ho => h o (by simp [ho]))
  | some v :: xs, h => by
    exact absurd (h (some v) (by simp)) (by simp)

/-- Field equations of a successful row enrichment in `genmap3.py`. -/
theorem enrichRow3_ok_fields (t : Table3) (r : Row3) (x : ERow3)
    (h : enrichRow3 t r = Except.ok x) :
    x.votes = (to_numeric r.votes).getD 0 ∧
    x.totalValid = (if t.hasTotalValid then to_numeric r.totalValid else none) ∧
    x.totalRejected = (if t.hasTotalRejected then to_numeric r.totalRejected else none) ∧
    x.totalVotes = (if t.hasTotalVotes then to_numeric r.totalVotes else none) := by
  revert h
  unfold enrichRow3
  cases to_numeric r.electoralDistrictID with
  | none => intro h; cases h
  | some d =>
    intro h
    injection h with h
    subst h
    exact ⟨rfl, rfl, rfl, rfl⟩

/-- Inversion of a successful `genmap3.py` index build: every produced entry
is the aggregation of the original-order group of enriched rows with its
key. -/
theorem build_results_index3_ok_elim (s : List ERow3 → List ERow3) (t : Table3)
    (idx : List ((String × String) × Entry3))
    (h : build_results_index3 s t = Except.ok idx)
    (k : String × String) (e : Entry3) (he : (k, e) ∈ idx) :
    ∃ er, mapME (enrichRow3 t) t.rows = Except.ok er ∧
      e = aggregateGroup3 s (er.filter (fun r => decide (key3 r = k))) := by
  revert h
  unfold build_results_index3
  cases hm : mapME (enrichRow3 t) t.rows with
  | error e0 => intro h; cases h
  | ok er =>
    intro h
    injection h with h
    subst h
    rcases List.mem_map.mp he with ⟨k0, _, hke⟩
    have hk : k0 = k := congrArg Prod.fst hke
    subst hk
    exact ⟨er, rfl, (congrArg Prod.snd hke).symm⟩

/-- Inversion of a successful group aggregation in `generate_map.py`. -/
theorem aggregateGroupGM_ok_elim (f1 f2 f3 : Bool) (g : List RowGM) (e : EntryGM)
    (h : aggregateGroupGM f1 f2 f3 g = Except.ok e) :
    (if f1 then intCell g.headI.totalValid else sumVotesGM g) = Except.ok e.total_valid ∧
    (if f2 then intCell g.headI.totalRejected else Except.ok 0) = Except.ok e.rejected ∧
    (if f3 then intCell g.headI.totalVotes else Except.ok (e.total_valid + e.rejected)) =
      Except.ok e.total ∧
    ∃ rows0, mkRowsGM e.total_valid g = Except.ok rows0 ∧ e.rows = sortRowsGM rows0 := by
  unfold aggregateGroupGM at h
  cases h1 : (if f1 then intCell g.headI.totalValid else sumVotesGM g) with
  | error e0 => rw [h1] at h; exact absurd h (by simp)
  | ok tv =>
    rw [h1] at h
    dsimp only at h
    cases h2 : (if f2 then intCell g.headI.totalRejected else Except.ok 0) with
    | error e0 => rw [h2] at h; exact absurd h (by simp)
    | ok rj =>
      rw [h2] at h
      dsimp only at h
      cases h3 : (if f3 then intCell g.headI.totalVotes else Except.ok (tv + rj)) with
      | error e0 => rw [h3] at h; exact absurd h (by simp)
      | ok tt =>
        rw [h3] at h
        dsimp only at h
        cases h4 : mkRowsGM tv g with
        | error e0 => rw [h4] at h; exact absurd h (by simp)
        | ok rows0 =>
          rw [h4] at h
          dsimp only at h
          injection h with h
          subst h
          exact ⟨rfl, rfl, h3, rows0, h4, rfl⟩

/-- `sort_values` contract holds for the concrete stable sort. -/
theorem validDescSort_sortDescStable : ValidDescSort sortDescStable :=
  fun l =>
    ⟨sortByKeep_perm (stableDescKeep ERow3.votes) l,
     sortByKeep_sorted ERow3.votes (goodKeep_stable ERow3.votes) l⟩

/-- `sort_values` contract also holds for the anti-stable sort. -/
theorem validDescSort_sortDescAnti : ValidDescSort sortDescAnti :=
  fun l =>
    ⟨sortByKeep_perm (antiDescKeep ERow3.votes) l,
     sortByKeep_sorted ERow3.votes (goodKeep_anti ERow3.votes) l⟩



/-! Concrete inputs -/

def erM1 : ERow3 :=
  { posteNorm := "0", sectionCode := "011-037", districtInt := 11, bureauRaw := "37"
    candidat := "A", parti := "PartyX", votes := 30
    totalValid := none, totalRejected := none, totalVotes := none }

def erM2 : ERow3 :=
  { posteNorm := "0", sectionCode := "011-037", districtInt := 11, bureauRaw := "37"
    candidat := "B", parti := "PartyY", votes := 20
    totalValid := none, totalRejected := none, totalVotes := none }

def rowTieA : Row3 :=
  { poste := some "0", electoralDistrictID := some "11", bureau := some "37"
    candidat := some "A", parti := some "PA", votes := some "5"
    totalValid := none, totalRejected := none, totalVotes := none }

def rowTieB : Row3 :=
  { poste := some "0", electoralDistrictID := some "11", bureau := some "37"
    candidat := some "B", parti := some "PB", votes := some "5"
    totalValid := none, totalRejected := none, totalVotes := none }

def tTie : Table3 :=
  { rows := [rowTieA, rowTieB]
    hasTotalValid := false, hasTotalRejected := false, hasTotalVotes := false }

def eTieAnti : Entry3 :=
  { winner_candidate := "B", winner_party := "PB", winner_votes := 5
    total_valid := none, total_rejected := none, total_votes := none
    district_id := "11", bureau := "37"
    breakdown :=
      [{ candidat := "A", parti := "PA", votes := 5, pct := none },
       { candidat := "B", parti := "PB", votes := 5, pct := none }] }

def rowLow : Row3 :=
  { poste := some "0", electoralDistrictID := some "11", bureau := some "37"
    candidat := some "L", parti := some "PL", votes := some "1"
    totalValid := none, totalRejected := none, totalVotes := none }

def rowHigh : Row3 :=
  { poste := some "0", electoralDistrictID := some "11", bureau := some "37"
    candidat := some "H", parti := some "PH", votes := some "5"
    totalValid := none, totalRejected := none, totalVotes := none }

def tUnsorted : Table3 :=
  { rows := [rowLow, rowHigh]
    hasTotalValid := false, hasTotalRejected := false, hasTotalVotes := false }

def eUnsorted : Entry3 :=
  { winner_candidate := "H", winner_party := "PH", winner_votes := 5
    total_valid := none, total_rejected := none, total_votes := none
    district_id := "11", bureau := "37"
    breakdown :=
      [{ candidat := "L", parti := "PL", votes := 1, pct := none },
       { candidat := "H", parti := "PH", votes := 5, pct := none }] }

def rowBadDist : Row3 :=
  { poste := some "0", electoralDistrictID := some "N/A", bureau := some "37"
    candidat := some "A", parti := some "PA", votes := some "12"
    totalValid := some "100", totalRejected := some "3", totalVotes := some "103" }

def tBadDist : Table3 :=
  { rows := [rowBadDist]
    hasTotalValid := true, hasTotalRejected := true, hasTotalVotes := true }

def rowWeird : Row3 :=
  { poste := some "1,10", electoralDistrictID := some "7", bureau := some "x9y"
    candidat := none, parti := some " P ", votes := some "xyz"
    totalValid := some "oops", totalRejected := none, totalVotes := some "-" }

def tWeird : Table3 :=
  { rows := [rowWeird]
    hasTotalValid := true, hasTotalRejected := true, hasTotalVotes := true }

def rowNeg : Row3 :=
  { poste := some "0", electoralDistrictID := some "11", bureau := some "37"
    candidat := some "N", parti := some "PN", votes := some "-3"
    totalValid := none, totalRejected := none, totalVotes := none }

def tNeg : Table3 :=
  { rows := [rowNeg]
    hasTotalValid := false, hasTotalRejected := false, hasTotalVotes := false }

def eNeg : Entry3 :=
  { winner_candidate := "N", winner_party := "PN", winner_votes := -3
    total_valid := none, total_rejected := none, total_votes := none
    district_id := "11", bureau := "37"
    breakdown := [{ candidat := "N", parti := "PN", votes := -3, pct := none }] }

def bNeg : BRow3 := { candidat := "N", parti := "PN", votes := -3, pct := none }

/-! Claim theorems, first batch -/

/-- C1: for every non-empty group of rows sharing one (office, section) key,
and every sorting behaviour permitted by `sort_values`, the winner votes of
the aggregated record equal the maximum of the votes over the group. -/
theorem genmap3_winner_votes_is_group_max (s : List ERow3 → List ERow3)
    (hs : ValidDescSort s) (g : List ERow3) (hg : g ≠ []) :
    (aggregateGroup3 s g).winner_votes ∈ g.map ERow3.votes ∧
      ∀ v ∈ g.map ERow3.votes, v ≤ (aggregateGroup3 s g).winner_votes := by
  obtain ⟨hperm, hsorted⟩ := hs g
  have hw : (aggregateGroup3 s g).winner_votes = ((s g).headI).votes := rfl
  cases hsg : s g with
  | nil =>
    exact absurd (hsg ▸ hperm).symm.eq_nil hg
  | cons w rest =>
    rw [hsg] at hperm hsorted
    rw [hw, hsg]
    constructor
    · exact List.mem_map_of_mem ERow3.votes (hperm.mem_iff.mp (by simp))
    · intro v hv
      rcases List.mem_map.mp hv with ⟨r, hr, rfl⟩
      rcases List.mem_cons.mp (hperm.mem_iff.mpr hr) with rfl | hrrest
      · exact le_refl _
      · exact (List.pairwise_cons.mp hsorted).1 r hrrest

theorem genmap3_winner_votes_is_group_max_witness :
    ValidDescSort sortDescStable ∧ ([erM1, erM2] ≠ []) ∧
      ((aggregateGroup3 sortDescStable [erM1, erM2]).winner_votes ∈
          [erM1, erM2].map ERow3.votes ∧
        ∀ v ∈ [erM1, erM2].map ERow3.votes,
          v ≤ (aggregateGroup3 sortDescStable [erM1, erM2]).winner_votes) :=
  ⟨validDescSort_sortDescStable, by decide,
   genmap3_winner_votes_is_group_max sortDescStable validDescSort_sortDescStable
     [erM1, erM2] (by decide)⟩

/-- C2 counterexample: the anti-stable sort satisfies everything
`sort_values(kind='quicksort')` guarantees, yet on a two-way tie the
aggregated winner is the SECOND tied row ("B"), not the first one in original
input order ("A"). -/
theorem genmap3_tie_winner_not_first_counterexample :
    ValidDescSort sortDescAnti ∧
      build_results_index3 sortDescAnti tTie = Except.ok [(("0", "011-037"), eTieAnti)] ∧
      tTie.rows.headI.candidat = some "A" ∧
      rowTieA.votes = rowTieB.votes ∧
      eTieAnti.winner_candidate = "B" ∧
      ("B" : String) ≠ "A" :=
  ⟨validDescSort_sortDescAnti, rfl, by decide, by decide, by decide, by decide⟩

/-- C3 counterexample: `genmap3.py` builds the breakdown by iterating the
group in original order without sorting it, so a group arriving as votes
`[1, 5]` is emitted unsorted. -/
theorem genmap3_breakdown_unsorted_counterexample :
    build_results_index3 sortDescStable tUnsorted =
        Except.ok [(("0", "011-037"), eUnsorted)] ∧
      eUnsorted.breakdown.map BRow3.votes = [1, 5] ∧
      ¬ eUnsorted.breakdown.Pairwise (fun a b => b.votes ≤ a.votes) :=
  ⟨rfl, by decide, by decide⟩

/-- C5 counterexample: office-code normalization in the source is a bare
comma-to-dot substitution, so `"0.0"` does not normalize to `"0"` as the
claim requires. -/
theorem normalize_office_code_counterexample :
    posteNormStr "0" = "0" ∧ posteNormStr "0.0" = "0.0" ∧ ("0.0" : String) ≠ "0" :=
  ⟨rfl, rfl, by decide⟩

/-- C5 amended: the comma-decimal and dot-decimal spellings of an office code
normalize identically (`"1,10"` and `"1.10"` both give `"1.10"`), but no
float canonicalization happens: `"0"`, `"0.0"` and `"0,00"` stay textually
distinct. -/
theorem posteNorm_comma_to_dot_only :
    posteNormStr "1,10" = "1.10" ∧ posteNormStr "1.10" = "1.10" ∧
      posteNormStr "0,00" = "0.00" ∧ posteNormStr "0" = "0" ∧
      posteNormStr "0.0" = "0.0" ∧ posteNormStr "0.0" ≠ posteNormStr "0" := by
  refine ⟨rfl, rfl, rfl, rfl, rfl, by decide⟩

/-- C6 counterexample: `build_results_index` of `genmap3.py` raises
(`astype(int)` on a NaN) as soon as one row's `ElectoralDistrictID` is not
numeric, which is a data-quality issue, not a structural one. -/
theorem genmap3_raises_on_nonnumeric_district_counterexample :
    build_results_index3 sortDescStable tBadDist =
      Except.error "IntCastingNaNError: cannot convert non-finite values to integer" := rfl

/-- C6 amended: the aggregator of `genmap3.py` completes successfully
whenever every row's `ElectoralDistrictID` is numeric, whatever garbage the
other fields contain (non-numeric votes and totals are degraded to 0 / NaN,
missing candidate and party become empty strings). -/
theorem genmap3_ok_of_numeric_districts (s : List ERow3 → List ERow3) (t : Table3)
    (h : ∀ r ∈ t.rows, (to_numeric r.electoralDistrictID).isSome = true) :
    ∃ idx, build_results_index3 s t = Except.ok idx := by
  obtain ⟨er, her⟩ :=
    mapME_ok_of_forall (enrichRow3 t) t.rows (fun r hr => by
      have hd := h r hr
      revert hd
      unfold enrichRow3
      cases to_numeric r.electoralDistrictID with
      | none => intro hd; cases hd
      | some d => intro _; exact ⟨_, rfl⟩)
  refine ⟨(dedupFirst (er.map key3)).map
      (fun k => (k, aggregateGroup3 s (er.filter (fun r => decide (key3 r = k))))), ?_⟩
  unfold build_results_index3
  rw [her]

theorem genmap3_ok_of_numeric_districts_witness :
    (∀ r ∈ tWeird.rows, (to_numeric r.electoralDistrictID).isSome = true) ∧
      ∃ idx, build_results_index3 sortDescStable tWeird = Except.ok idx :=
  ⟨by decide, genmap3_ok_of_numeric_districts sortDescStable tWeird (by decide)⟩

/-- C8 counterexample: a numeric negative votes cell passes through the
`to_numeric`/`fillna(0)` coercion of `genmap3.py` unchanged, so the emitted
breakdown contains a negative votes value. -/
theorem genmap3_negative_votes_counterexample :
    build_results_index3 sortDescStable tNeg = Except.ok [(("0", "011-037"), eNeg)] ∧
      eNeg.breakdown.map BRow3.votes = [-3] ∧ ((-3 : Int) < 0) :=
  ⟨rfl, by decide, by decide⟩

/-- C8 amended: every votes value of an emitted breakdown row is the
`to_numeric` coercion of the votes cell of some input row, with missing or
non-numeric cells contributing 0 (negative numeric cells are not clamped). -/
theorem genmap3_breakdown_votes_coerced (s : List ERow3 → List ERow3) (t : Table3)
    (idx : List ((String × String) × Entry3))
    (h : build_results_index3 s t = Except.ok idx)
    (k : String × String) (e : Entry3) (he : (k, e) ∈ idx)
    (b : BRow3) (hb : b ∈ e.breakdown) :
    ∃ r ∈ t.rows, b.votes = (to_numeric r.votes).getD 0 := by
  obtain ⟨er, hmm, rfl⟩ := build_results_index3_ok_elim s t idx h k e he
  have hb2 : b ∈ (er.filter (fun r => decide (key3 r = k))).map
      (mkBRow3 (totalForPct
        (colMax ((er.filter (fun r => decide (key3 r = k))).map ERow3.totalValid))
        (colMax ((er.filter (fun r => decide (key3 r = k))).map ERow3.totalVotes)))) := hb
  rcases List.mem_map.mp hb2 with ⟨x, hx, rfl⟩
  obtain ⟨r, hr, hfr⟩ :=
    mapME_ok_mem (enrichRow3 t) t.rows er hmm x (List.mem_of_mem_filter hx)
  exact ⟨r, hr, (enrichRow3_ok_fields t r x hfr).1⟩

theorem genmap3_breakdown_votes_coerced_witness :
    ∃ r ∈ tNeg.rows, bNeg.votes = (to_numeric r.votes).getD 0 :=
  genmap3_breakdown_votes_coerced sortDescStable tNeg
    [(("0", "011-037"), eNeg)] rfl ("0", "011-037") eNeg (by decide) bNeg (by decide)

/-- C9: a completely empty input table yields an empty results index and no
error, in both `genmap3.py` and `generate_map.py`. -/
theorem empty_input_gives_empty_index :
    (∀ (s : List ERow3 → List ERow3) (f1 f2 f3 : Bool),
        build_results_index3 s
            { rows := [], hasTotalValid := f1, hasTotalRejected := f2, hasTotalVotes := f3 } =
          Except.ok []) ∧
      (∀ f1 f2 f3 : Bool, build_results_index_gm f1 f2 f3 [] = Except.ok []) :=
  ⟨fun _ _ _ _ => rfl, fun _ _ _ => rfl⟩



/-- Modelled from the spec's denominator sentence, for comparison with the
code: prefer `total_valid` when present and positive, else `total`, else the
percentage is undefined. -/
def specPct (tv tt : Option Int) (votes : Int) : Option ℚ :=
  match tv with
  | some v =>
    if 0 < v then some ((votes * 100 : ℚ) / (v : ℚ))
    else
      match tt with
      | some w => if 0 < w then some ((votes * 100 : ℚ) / (w : ℚ)) else none
      | none => none
  | none =>
    match tt with
    | some w => if 0 < w then some ((votes * 100 : ℚ) / (w : ℚ)) else none
    | none => none

theorem totalForPct_map_pct (tv tt : Option Int) (v : Int) :
    Option.map (fun d => (v * 100 : ℚ) / (d : ℚ)) (totalForPct tv tt) = specPct tv tt v := by
  unfold totalForPct specPct
  cases tv with
  | none =>
    cases tt with
    | none => rfl
    | some w => by_cases h : 0 < w <;> simp [h]
  | some x =>
    by_cases h : 0 < x
    · simp [h]
    · cases tt with
      | none => simp [h]
      | some w => by_cases h2 : 0 < w <;> simp [h, h2]

/-- C4 amended: in `genmap3.py` every breakdown percentage follows the
spec's denominator rule (prefer a positive `total_valid`, fall back to a
positive `total_votes`, else undefined), and the rule yields the three
concrete values of the claim. -/
theorem genmap3_pct_denominator_rule :
    (∀ (s : List ERow3 → List ERow3) (g : List ERow3),
        (aggregateGroup3 s g).breakdown.map BRow3.pct =
          g.map (fun r =>
            specPct (colMax (g.map ERow3.totalValid))
              (colMax (g.map ERow3.totalVotes)) r.votes)) ∧
      specPct (some 100) none 25 = some 25 ∧
      specPct (some 0) (some 50) 10 = some 20 ∧
      specPct none none 10 = none := by
  refine ⟨?_, ?_, ?_, rfl⟩
  · intro s g
    simp only [aggregateGroup3, List.map_map]
    refine List.map_congr_left ?_
    intro r _
    simp only [Function.comp, mkBRow3]
    exact totalForPct_map_pct _ _ _
  · norm_num [specPct]
  · norm_num [specPct]

/-! Concrete generate_map inputs -/

def rGM4 : RowGM :=
  { districtID := some "11", bureau := some "37", poste := 0
    candidat := some "C", parti := some "P", votes := some "10"
    totalValid := some "0", totalRejected := none, totalVotes := some "50" }

def eC4 : EntryGM := okValue (aggregateGroupGM true false true [rGM4])

/-- C4 counterexample: `generate_map.py` on the claim's second concrete
input (`total_valid = 0`, `total_votes = 50`, `votes = 10`) emits `pct = 0`,
not the claimed `20.00`: its denominator never falls back to `TotalVotes`. -/
theorem gm_pct_no_fallback_counterexample :
    aggregateGroupGM true false true [rGM4] = Except.ok eC4 ∧
      eC4.total_valid = 0 ∧ eC4.total = 50 ∧
      eC4.rows.map BRowGM.votes = [10] ∧
      eC4.rows.map BRowGM.pct = [round2 0] ∧
      round2 0 = 0 ∧ (0 : ℚ) ≠ 20 := by
  refine ⟨rfl, rfl, rfl, by decide, rfl, ?_, by norm_num⟩
  norm_num [round2, roundHalfEven]

def rGM7 : RowGM :=
  { districtID := some "11", bureau := some "37", poste := 0
    candidat := some "C", parti := some "P", votes := some "30"
    totalValid := none, totalRejected := none, totalVotes := none }

def eC7 : EntryGM := okValue (aggregateGroupGM false false false [rGM7])

/-- C7 counterexample: with the three total columns absent from the source,
`generate_map.py` still emits the numbers `rejected = 0`,
`total_valid = 30`, `total = 30` instead of a null marker, so a renderer
cannot tell "no data" from "zero votes". -/
theorem gm_absent_totals_emit_numbers_counterexample :
    aggregateGroupGM false false false [rGM7] = Except.ok eC7 ∧
      eC7.rejected = 0 ∧ eC7.total_valid = 30 ∧ eC7.total = 30 :=
  ⟨rfl, rfl, rfl, rfl⟩

/-- C7 amended: `genmap3.py` does serialize unavailable numeric fields as
null: when a total column is absent from the CSV the corresponding entry
field is `None`, and when no positive denominator exists every breakdown
`pct` is `None`.  (`generate_map.py` instead substitutes synthesized numbers,
see the counterexample.) -/
theorem genmap3_missing_totals_serialize_null (s : List ERow3 → List ERow3)
    (t : Table3) (idx : List ((String × String) × Entry3))
    (h : build_results_index3 s t = Except.ok idx)
    (k : String × String) (e : Entry3) (he : (k, e) ∈ idx) :
    (t.hasTotalValid = false → e.total_valid = none) ∧
      (t.hasTotalRejected = false → e.total_rejected = none) ∧
      (t.hasTotalVotes = false → e.total_votes = none) ∧
      (t.hasTotalValid = false → t.hasTotalVotes = false →
        ∀ b ∈ e.breakdown, b.pct = none) := by
  obtain ⟨er, hmm, rfl⟩ := build_results_index3_ok_elim s t idx h k e he
  have hnone : ∀ (x : ERow3), x ∈ er →
      (t.hasTotalValid = false → x.totalValid = none) ∧
      (t.hasTotalRejected = false → x.totalRejected = none) ∧
      (t.hasTotalVotes = false → x.totalVotes = none) := by
    intro x hx
    obtain ⟨r, _, hfr⟩ := mapME_ok_mem (enrichRow3 t) t.rows er hmm x hx
    obtain ⟨_, hv, hr2, ht⟩ := enrichRow3_ok_fields t r x hfr
    refine ⟨fun hf => ?_, fun hf => ?_, fun hf => ?_⟩
    · rw [hv, hf]; rfl
    · rw [hr2, hf]; rfl
    · rw [ht, hf]; rfl
  have hgsub : ∀ x ∈ er.filter (fun r => decide (key3 r = k)), x ∈ er :=
    fun x hx => List.mem_of_mem_filter hx
  have htv : t.hasTotalValid = false →
      colMax ((er.filter (fun r => decide (key3 r = k))).map ERow3.totalValid) = none := by
    intro hf
    refine colMax_eq_none _ ?_
    intro o ho
    rcases List.mem_map.mp ho with ⟨x, hx, rfl⟩
    exact (hnone x (hgsub x hx)).1 hf
  have htr : t.hasTotalRejected = false →
      colMax ((er.filter (fun r => decide (key3 r = k))).map ERow3.totalRejected) = none := by
    intro hf
    refine colMax_eq_none _ ?_
    intro o ho
    rcases List.mem_map.mp ho with ⟨x, hx, rfl⟩
    exact (hnone x (hgsub x hx)).2.1 hf
  have htt : t.hasTotalVotes = false →
      colMax ((er.filter (fun r => decide (key3 r = k))).map ERow3.totalVotes) = none := by
    intro hf
    refine colMax_eq_none _ ?_
    intro o ho
    rcases List.mem_map.mp ho with ⟨x, hx, rfl⟩
    exact (hnone x (hgsub x hx)).2.2 hf
  refine ⟨fun hf => ?_, fun hf => ?_, fun hf => ?_, fun hf1 hf3 => ?_⟩
  · show colMax _ = none
    exact htv hf
  · show colMax _ = none
    exact htr hf
  · show colMax _ = none
    exact htt hf
  · intro b hb
    have hb2 : b ∈ (er.filter (fun r => decide (key3 r = k))).map
        (mkBRow3 (totalForPct
          (colMax ((er.filter (fun r => decide (key3 r = k))).map ERow3.totalValid))
          (colMax ((er.filter (fun r => decide (key3 r = k))).map ERow3.totalVotes)))) := hb
    rcases List.mem_map.mp hb2 with ⟨x, _, rfl⟩
    simp only [mkBRow3]
    rw [htv hf1, htt hf3]
    rfl

/-- C10: when the per-group total columns are absent, `generate_map.py`
synthesizes the totals: `total_valid` is the sum of the group's coerced
votes, `rejected` is `0`, and `total` is `total_valid + rejected`. -/
theorem gm_absent_columns_synthesize_totals (f1 f2 f3 : Bool) (g : List RowGM)
    (e : EntryGM) (h : aggregateGroupGM f1 f2 f3 g = Except.ok e) :
    (f1 = false → ∃ vs, mapME (fun r => intCell r.votes) g = Except.ok vs ∧
        e.total_valid = vs.sum) ∧
      (f2 = false → e.rejected = 0) ∧
      (f3 = false → e.total = e.total_valid + e.rejected) := by
  obtain ⟨h1, h2, h3, _⟩ := aggregateGroupGM_ok_elim f1 f2 f3 g e h
  refine ⟨fun hf => ?_, fun hf => ?_, fun hf => ?_⟩
  · rw [hf] at h1
    simp only [Bool.false_eq_true, if_false] at h1
    revert h1
    unfold sumVotesGM
    cases hm : mapME (fun r => intCell r.votes) g with
    | error e0 => intro h1; cases h1
    | ok vs =>
      intro h1
      injection h1 with h1
      exact ⟨vs, rfl, h1.symm⟩
  · rw [hf] at h2
    simp only [Bool.false_eq_true, if_false] at h2
    injection h2 with h2
    exact h2.symm
  · rw [hf] at h3
    simp only [Bool.false_eq_true, if_false] at h3
    injection h3 with h3
    exact h3.symm

def rGM10 : RowGM :=
  { districtID := some "11", bureau := some "37", poste := 0
    candidat := some "D", parti := some "Q", votes := some "30"
    totalValid := none, totalRejected := none, totalVotes := none }

def eC10 : EntryGM := okValue (aggregateGroupGM false false false [rGM10])

theorem gm_absent_columns_synthesize_totals_witness :
    (false = false → ∃ vs, mapME (fun r => intCell r.votes) [rGM10] = Except.ok vs ∧
        eC10.total_valid = vs.sum) ∧
      (false = false → eC10.rejected = 0) ∧
      (false = false → eC10.total = eC10.total_valid + eC10.rejected) :=
  gm_absent_columns_synthesize_totals false false false [rGM10] eC10 rfl

/-- C2 amended, the part of the claim that does hold: in `generate_map.py`,
whose Python and JavaScript sorts are stable, the winner shown by
`getWinnerInfo` is exactly the first row of the group (in original source
order) whose votes attain the group maximum. -/
theorem gm_winner_first_of_maximal (f1 f2 f3 : Bool) (g : List RowGM) (e : EntryGM)
    (h : aggregateGroupGM f1 f2 f3 g = Except.ok e) (hg : g ≠ []) :
    ∃ rows0 l₁ w l₂,
      mkRowsGM e.total_valid g = Except.ok rows0 ∧
      rows0 = l₁ ++ w :: l₂ ∧
      (∀ b ∈ l₁, b.votes < w.votes) ∧
      (∀ b ∈ rows0, b.votes ≤ w.votes) ∧
      getWinnerInfo e = some
        { parti := jsTrimUpper w.parti, nom := w.nom, votes := w.votes
          total_valid := e.total_valid } := by
  obtain ⟨_, _, _, rows0, h4, hrows⟩ := aggregateGroupGM_ok_elim f1 f2 f3 g e h
  have h4m : mapME (fun r =>
      match to_numeric r.votes with
      | some v => Except.ok (mkBRowGM e.total_valid v r)
      | none => Except.error "invalid literal for int()") g = Except.ok rows0 := h4
  have hne : rows0 ≠ [] := by
    intro h0
    subst h0
    have hl := mapME_ok_length _ g [] h4m
    cases g with
    | nil => exact hg rfl
    | cons a as => simp at hl
  obtain ⟨l₁, w, l₂, hdec, hlt, hle, hhead⟩ := sortByKeep_stable_head BRowGM.votes rows0 hne
  obtain ⟨rest, hsr⟩ : ∃ rest, sortRowsGM rows0 = w :: rest := by
    cases hs : sortByKeep (stableDescKeep BRowGM.votes) rows0 with
    | nil => rw [hs] at hhead; cases hhead
    | cons a t =>
      rw [hs] at hhead
      injection hhead with hh
      rw [hh] at hs
      exact ⟨t, hs⟩
  have hsorted : (w :: rest).Pairwise (fun a b => BRowGM.votes b ≤ BRowGM.votes a) := by
    rw [← hsr]
    exact sortByKeep_sorted BRowGM.votes (goodKeep_stable BRowGM.votes) rows0
  refine ⟨rows0, l₁, w, l₂, h4, hdec, hlt, hle, ?_⟩
  unfold getWinnerInfo
  rw [hrows, hsr]
  have hfix : sortRowsGM (w :: rest) = w :: rest :=
    sortByKeep_stable_fix BRowGM.votes (w :: rest) hsorted
  dsimp only
  rw [hfix]
  rfl

def rowStW1 : RowGM :=
  { districtID := some "11", bureau := some "37", poste := 0
    candidat := some "X", parti := some "px", votes := some "4"
    totalValid := none, totalRejected := none, totalVotes := none }

def rowStW2 : RowGM :=
  { districtID := some "11", bureau := some "37", poste := 0
    candidat := some "Y", parti := some "py", votes := some "4"
    totalValid := none, totalRejected := none, totalVotes := none }

def eStW : EntryGM := okValue (aggregateGroupGM false false false [rowStW1, rowStW2])

theorem gm_winner_first_of_maximal_witness :
    ∃ rows0 l₁ w l₂,
      mkRowsGM eStW.total_valid [rowStW1, rowStW2] = Except.ok rows0 ∧
      rows0 = l₁ ++ w :: l₂ ∧
      (∀ b ∈ l₁, b.votes < w.votes) ∧
      (∀ b ∈ rows0, b.votes ≤ w.votes) ∧
      getWinnerInfo eStW = some
        { parti := jsTrimUpper w.parti, nom := w.nom, votes := w.votes
          total_valid := eStW.total_valid } :=
  gm_winner_first_of_maximal false false false [rowStW1, rowStW2] eStW rfl (by decide)

/-- C3 amended: in `generate_map.py` the per-group breakdown really is
sorted by votes descending, and the sort is stable: for every votes value
the rows carrying it keep their original relative order. -/
theorem gm_breakdown_sorted_desc_stable (f1 f2 f3 : Bool) (g : List RowGM)
    (e : EntryGM) (h : aggregateGroupGM f1 f2 f3 g = Except.ok e) :
    e.rows.Pairwise (fun a b => BRowGM.votes b ≤ BRowGM.votes a) ∧
      ∀ rows0, mkRowsGM e.total_valid g = Except.ok rows0 →
        ∀ v : Int, e.rows.filter (fun b => decide (BRowGM.votes b = v)) =
          rows0.filter (fun b => decide (BRowGM.votes b = v)) := by
  obtain ⟨_, _, _, rows0w, h4, hrows⟩ := aggregateGroupGM_ok_elim f1 f2 f3 g e h
  constructor
  · rw [hrows]
    exact sortByKeep_sorted BRowGM.votes (goodKeep_stable BRowGM.votes) rows0w
  · intro rows0 hr0 v
    rw [h4] at hr0
    injection hr0 with heq
    subst heq
    rw [hrows]
    exact sortByKeep_stable_filter BRowGM.votes v rows0w

def rowSrt1 : RowGM :=
  { districtID := some "11", bureau := some "37", poste := 0
    candidat := some "U", parti := some "pu", votes := some "1"
    totalValid := none, totalRejected := none, totalVotes := none }

def rowSrt2 : RowGM :=
  { districtID := some "11", bureau := some "37", poste := 0
    candidat := some "V", parti := some "pv", votes := some "6"
    totalValid := none, totalRejected := none, totalVotes := none }

def eSrt : EntryGM := okValue (aggregateGroupGM false false false [rowSrt1, rowSrt2])

theorem gm_breakdown_sorted_desc_stable_witness :
    eSrt.rows.Pairwise (fun a b => BRowGM.votes b ≤ BRowGM.votes a) ∧
      ∀ rows0, mkRowsGM eSrt.total_valid [rowSrt1, rowSrt2] = Except.ok rows0 →
        ∀ v : Int, eSrt.rows.filter (fun b => decide (BRowGM.votes b = v)) =
          rows0.filter (fun b => decide (BRowGM.votes b = v)) :=
  gm_breakdown_sorted_desc_stable false false false [rowSrt1, rowSrt2] eSrt rfl

def rowNull : Row3 :=
  { poste := some "0", electoralDistrictID := some "11", bureau := some "37"
    candidat := some "Z", parti := some "PZ", votes := some "4"
    totalValid := none, totalRejected := none, totalVotes := none }

def tNull : Table3 :=
  { rows := [rowNull]
    hasTotalValid := false, hasTotalRejected := false, hasTotalVotes := false }

def eNull : Entry3 :=
  { winner_candidate := "Z", winner_party := "PZ", winner_votes := 4
    total_valid := none, total_rejected := none, total_votes := none
    district_id := "11", bureau := "37"
    breakdown := [{ candidat := "Z", parti := "PZ", votes := 4, pct := none }] }

theorem genmap3_missing_totals_serialize_null_witness :
    (tNull.hasTotalValid = false → eNull.total_valid = none) ∧
      (tNull.hasTotalRejected = false → eNull.total_rejected = none) ∧
      (tNull.hasTotalVotes = false → eNull.total_votes = none) ∧
      (tNull.hasTotalValid = false → tNull.hasTotalVotes = false →
        ∀ b ∈ eNull.breakdown, b.pct = none) :=
  genmap3_missing_totals_serialize_null sortDescStable tNull
    [(("0", "011-037"), eNull)] rfl ("0", "011-037") eNull (by decide)

end Elections
